import Mathlib

/-!
Verification of the Dividend Tracker App core (src/models.py, src/calculator.py).

Shallow embedding conventions:
* Python `Decimal` amounts, prices and share counts are embedded as `ℚ`
  (the operations exercised here — `+`, `-`, `*`, guarded `/` — are exact
  rational arithmetic on the inputs involved).
* `datetime.date` is embedded as a year/month/day triple with the
  lexicographic order Python uses for dates; `date.today()` is an ambient
  value in Python and is passed as an explicit `today` parameter.
* Python `dict` (`Portfolio.schedules`) is an insertion-ordered association
  list; iteration (`.items()`) walks the list, `.get` is the first lookup.
* A Python attribute access on a name the class does not define raises
  `AttributeError`; this is embedded as an `Except String` result.
-/

/-- A calendar date: `datetime.date`, embedded as a year/month/day triple.
`Valid` (below) captures the range invariants Python's constructor enforces. -/
structure Date where
  year : Int
  month : Nat
  day : Nat
deriving DecidableEq, Repr

/-- Python date comparison `a < b`: lexicographic on (year, month, day). -/
def Date.blt (a b : Date) : Bool :=
  decide (a.year < b.year ∨ (a.year = b.year ∧
    (a.month < b.month ∨ (a.month = b.month ∧ a.day < b.day))))

/-- Python date comparison `a <= b`: lexicographic on (year, month, day). -/
def Date.ble (a b : Date) : Bool :=
  decide (a.year < b.year ∨ (a.year = b.year ∧
    (a.month < b.month ∨ (a.month = b.month ∧ a.day ≤ b.day))))

/-- Gregorian leap-year rule, as used by Python's `calendar` module. -/
def isLeapYear (y : Int) : Bool :=
  (y % 4 == 0 && y % 100 != 0) || y % 400 == 0

/-- Days in a month: `calendar.monthrange(y, m)[1]`, the proleptic
Gregorian days-in-month rule. -/
def daysInMonth (y : Int) (m : Nat) : Nat :=
  if m = 2 then (if isLeapYear y then 29 else 28)
  else if m = 4 ∨ m = 6 ∨ m = 9 ∨ m = 11 then 30
  else 31

/-- The range invariants every `datetime.date` satisfies by construction. -/
def Date.Valid (d : Date) : Prop :=
  1 ≤ d.month ∧ d.month ≤ 12 ∧ 1 ≤ d.day ∧ d.day ≤ daysInMonth d.year d.month

instance (d : Date) : Decidable d.Valid := by
  unfold Date.Valid; infer_instance

/-- `models.Stock`: a holding in the portfolio. -/
structure Stock where
  ticker : String
  name : String
  shares : ℚ
  purchase_price : ℚ
  current_price : ℚ
  currency : String := "USD"
deriving DecidableEq, Repr

/-- `Stock.total_value`: shares × current price. -/
def Stock.total_value (s : Stock) : ℚ := s.shares * s.current_price

/-- `Stock.total_cost`: shares × purchase price. -/
def Stock.total_cost (s : Stock) : ℚ := s.shares * s.purchase_price

/-- `Stock.unrealized_gain`: total value − total cost. -/
def Stock.unrealized_gain (s : Stock) : ℚ := s.total_value - s.total_cost

/-- `models.Stock` defines `total_value`, `total_cost` and `unrealized_gain`
but no `unrealized_gain_percentage` attribute or property, so reading
`stock.unrealized_gain_percentage` (as `calculator.generate_dividend_summary`
and `example_usage.py` do) raises `AttributeError`.  The attribute lookup is
embedded as an `Except` value that is always an error. -/
def Stock.unrealized_gain_percentage_attr (_ : Stock) : Except String ℚ :=
  .error "AttributeError: Stock has no attribute unrealized_gain_percentage"

/-- `models.Dividend`: a recorded dividend payment. -/
structure Dividend where
  ticker : String
  payment_date : Date
  amount_per_share : ℚ
  shares_owned : ℚ
  payment_status : String := "pending"
deriving DecidableEq, Repr

/-- `Dividend.total_amount`: amount per share × shares owned at the
ex-dividend date (the snapshot stored on the event). -/
def Dividend.total_amount (d : Dividend) : ℚ :=
  d.amount_per_share * d.shares_owned

/-- `models.DividendSchedule`: the payment schedule for one ticker. -/
structure DividendSchedule where
  ticker : String
  frequency : String
  typical_amount : ℚ
  last_ex_dividend_date : Option Date := none
  next_payment_date : Option Date := none
deriving DecidableEq, Repr

/-- Python `str.lower()` on the ASCII frequency labels: lowercase each
character. -/
def pyLower (s : String) : String := String.mk (s.data.map Char.toLower)

/-- `DividendSchedule.get_annual_frequency`:
`frequency_map.get(self.frequency.lower(), 4)`. -/
def DividendSchedule.get_annual_frequency (s : DividendSchedule) : Nat :=
  if pyLower s.frequency = "monthly" then 12
  else if pyLower s.frequency = "quarterly" then 4
  else if pyLower s.frequency = "semi-annual" then 2
  else if pyLower s.frequency = "annual" then 1
  else 4

/-- `models.Portfolio`: holdings, the dividend event log, and the
ticker-keyed schedule map (insertion-ordered association list). -/
structure Portfolio where
  name : String
  stocks : List Stock := []
  dividends : List Dividend := []
  schedules : List (String × DividendSchedule) := []
deriving DecidableEq, Repr

/-- `Portfolio.add_stock`: appends the stock to the holdings list. -/
def Portfolio.add_stock (p : Portfolio) (s : Stock) : Portfolio :=
  { p with stocks := p.stocks ++ [s] }

/-- `Portfolio.add_dividend`: appends the event to the history. -/
def Portfolio.add_dividend (p : Portfolio) (d : Dividend) : Portfolio :=
  { p with dividends := p.dividends ++ [d] }

/-- `Portfolio.get_stock`: first holding whose ticker matches, else `None`. -/
def Portfolio.get_stock (p : Portfolio) (ticker : String) : Option Stock :=
  p.stocks.find? (fun s => s.ticker == ticker)

/-- `Portfolio.get_dividends_for_stock`: all events for the ticker. -/
def Portfolio.get_dividends_for_stock (p : Portfolio) (ticker : String) :
    List Dividend :=
  p.dividends.filter (fun d => d.ticker == ticker)

/-- `Portfolio.total_portfolio_value`: sum of holding values. -/
def Portfolio.total_portfolio_value (p : Portfolio) : ℚ :=
  (p.stocks.map Stock.total_value).sum

/-- `Portfolio.schedules.get(ticker)`: dict lookup on the schedule map. -/
def Portfolio.schedules_get (p : Portfolio) (ticker : String) :
    Option DividendSchedule :=
  (p.schedules.find? (fun ts => ts.1 == ticker)).map (·.2)

/-- The loop body filter of `calculate_total_dividend_income` applied to a
payment date: the event is kept unless `start_date` is given and
`payment_date < start_date`, or `payment_date > end_date`. -/
def keepDate (start? : Option Date) (endd : Date) (dt : Date) : Bool :=
  !(match start? with
    | some s => Date.blt dt s
    | none => false) && !(Date.blt endd dt)

/-- The loop body filter of `calculate_total_dividend_income` on an event. -/
def keepDividend (start? : Option Date) (endd : Date) (d : Dividend) : Bool :=
  keepDate start? endd d.payment_date

/-- `calculator.calculate_total_dividend_income`: sums `total_amount` of the
events the loop keeps; `end_date = None` defaults to `date.today()`
(passed here as `today`), `start_date = None` means unbounded past. -/
def calculate_total_dividend_income (p : Portfolio)
    (start_date end_date : Option Date) (today : Date) : ℚ :=
  let endd := end_date.getD today
  ((p.dividends.filter (keepDividend start_date endd)).map
    Dividend.total_amount).sum

/-- `calculator.calculate_annual_dividend_income`: for each schedule entry
whose ticker resolves to a holding, typical amount × annual frequency ×
shares; unresolved tickers contribute nothing. -/
def calculate_annual_dividend_income (p : Portfolio) : ℚ :=
  (p.schedules.map (fun ts =>
    match p.get_stock ts.1 with
    | some stock =>
        (ts.2.typical_amount * (ts.2.get_annual_frequency : ℚ)) * stock.shares
    | none => 0)).sum

/-- `calculator.calculate_dividend_yield`: 0 when the current price is 0,
else annual dividend per share ÷ current price × 100. -/
def calculate_dividend_yield (stock : Stock)
    (annual_dividend_per_share : ℚ) : ℚ :=
  if stock.current_price = 0 then 0
  else annual_dividend_per_share / stock.current_price * 100

/-- `calculator.calculate_portfolio_dividend_yield`: 0 when the total
portfolio value is 0, else schedule-derived annual income ÷ total value × 100. -/
def calculate_portfolio_dividend_yield (p : Portfolio) : ℚ :=
  if p.total_portfolio_value = 0 then 0
  else calculate_annual_dividend_income p / p.total_portfolio_value * 100

/-- The month-end date computed inside `project_dividend_income` for month
offset `m` from `today`: target month/year from the offset arithmetic of the
source, day = `monthrange(target_year, target_month)[1]`. -/
def projectionMonthEnd (today : Date) (m : Nat) : Date :=
  let target0 := today.month + m
  let target_year := today.year + ((target0 - 1) / 12 : Nat)
  let target_month := ((target0 - 1) % 12) + 1
  ⟨target_year, target_month, daysInMonth target_year target_month⟩

/-- `calculator.project_dividend_income`.  The source first computes
`monthly_growth = (1 + growth_rate/100) ** (Decimal(1)/Decimal(12))`, a
transcendental 12th root that has no exact rational value; it is the only
input to the rest of the function, so it is taken here as the parameter
`monthly_growth` (growth rate 0 gives `monthly_growth = 1` exactly, also
under `Decimal`).  For each month offset the growth factor is
`monthly_growth ^ offset` (the source's integral-exponent power) and each
resolved schedule contributes typical amount × shares × annual frequency ÷ 12
times that factor. -/
def project_dividend_income (p : Portfolio) (months : Nat)
    (monthly_growth : ℚ) (today : Date) : List (Date × ℚ) :=
  (List.range months).map (fun month_offset =>
    let month_end := projectionMonthEnd today month_offset
    let growth_factor := monthly_growth ^ month_offset
    let monthly_income :=
      (p.schedules.map (fun ts =>
        match p.get_stock ts.1 with
        | some stock =>
            (ts.2.typical_amount * stock.shares *
              (ts.2.get_annual_frequency : ℚ) / 12) * growth_factor
        | none => 0)).sum
    (month_end, monthly_income))

/-- Stable insertion of a dividend into a list already sorted by payment
date: the new element goes after existing elements with an earlier-or-equal
date.  Folding this over the event list gives exactly the result of Python's
stable `sorted(dividends, key=lambda d: d.payment_date)`. -/
def insertByDate (d : Dividend) : List Dividend → List Dividend
  | [] => [d]
  | e :: rest =>
      if Date.ble e.payment_date d.payment_date then e :: insertByDate d rest
      else d :: e :: rest

/-- `sorted(dividends, key=lambda d: d.payment_date)`: stable sort by
payment date. -/
def sortByPaymentDate (ds : List Dividend) : List Dividend :=
  ds.foldl (fun acc d => insertByDate d acc) []

/-- The growth-rate loop of `calculate_dividend_growth_rate`: for each
consecutive pair of the sorted list, when the earlier amount per share is
positive, record `(later − earlier) / earlier × 100`; pairs whose earlier
amount is not positive are skipped. -/
def pairGrowthRates : List Dividend → List ℚ
  | a :: b :: rest =>
      (if a.amount_per_share > 0 then
        [(b.amount_per_share - a.amount_per_share) / a.amount_per_share * 100]
      else []) ++ pairGrowthRates (b :: rest)
  | _ => []

/-- `calculator.calculate_dividend_growth_rate`: `None` when the ticker has
fewer than 2 events; otherwise the average of the recorded year-over-year
percentage deltas, or `None` when no pair qualified.  (The `years` parameter
of the source is accepted and never read, as in the source.) -/
def calculate_dividend_growth_rate (p : Portfolio) (ticker : String)
    (_years : Nat := 3) : Option ℚ :=
  let dividends := p.get_dividends_for_stock ticker
  if dividends.length < 2 then none
  else
    let sorted_dividends := sortByPaymentDate dividends
    let growth_rates := pairGrowthRates sorted_dividends
    if growth_rates = [] then none
    else some (growth_rates.sum / (growth_rates.length : ℚ))

/-- The numeric fields of one entry of the `stocks` list built by
`generate_dividend_summary` (the `*_formatted` fields are currency strings
layered on the same numbers and are not re-embedded). -/
structure StockInfo where
  ticker : String
  name : String
  shares : ℚ
  current_price : ℚ
  total_value : ℚ
  annual_dividend_income : ℚ
  dividend_yield : ℚ
  unrealized_gain : ℚ
  unrealized_gain_percentage : ℚ
deriving DecidableEq, Repr

/-- The per-stock record construction of `generate_dividend_summary`
(src/calculator.py lines 214-240): yield and annual income from the stock's
schedule when present, else 0; the final field reads
`stock.unrealized_gain_percentage`, which `models.Stock` does not define, so
the construction raises `AttributeError` (embedded as `Except.error`). -/
def build_stock_info (p : Portfolio) (stock : Stock) :
    Except String StockInfo := do
  let (stock_yield, annual_income) :=
    match p.schedules_get stock.ticker with
    | some schedule =>
        let annual_dividend_per_share :=
          schedule.typical_amount * (schedule.get_annual_frequency : ℚ)
        (calculate_dividend_yield stock annual_dividend_per_share,
          annual_dividend_per_share * stock.shares)
    | none => ((0 : ℚ), (0 : ℚ))
  let pct ← stock.unrealized_gain_percentage_attr
  pure { ticker := stock.ticker, name := stock.name, shares := stock.shares,
         current_price := stock.current_price,
         total_value := stock.total_value,
         annual_dividend_income := annual_income,
         dividend_yield := stock_yield,
         unrealized_gain := stock.unrealized_gain,
         unrealized_gain_percentage := pct }

/-- The numeric fields of the summary dictionary built by
`generate_dividend_summary`. -/
structure DividendSummary where
  total_portfolio_value : ℚ
  annual_dividend_income : ℚ
  ytd_dividend_income : ℚ
  portfolio_yield : ℚ
  number_of_stocks : Nat
  total_dividends_received : Nat
  currency : String
  stocks : List StockInfo
deriving DecidableEq, Repr

/-- `calculator.generate_dividend_summary`: the header metrics, then the
per-stock loop; the loop raises `AttributeError` on its first iteration
(see `build_stock_info`), so the whole call raises for any portfolio with at
least one holding. -/
def generate_dividend_summary (p : Portfolio) (today : Date) :
    Except String DividendSummary := do
  let year_start : Date := ⟨today.year, 1, 1⟩
  let infos ← p.stocks.mapM (build_stock_info p)
  pure { total_portfolio_value := p.total_portfolio_value,
         annual_dividend_income := calculate_annual_dividend_income p,
         ytd_dividend_income :=
           calculate_total_dividend_income p (some year_start) (some today) today,
         portfolio_yield := calculate_portfolio_dividend_yield p,
         number_of_stocks := p.stocks.length,
         total_dividends_received := p.dividends.length,
         currency := "INR",
         stocks := infos }

/-! ### Shared order lemmas and concrete inputs -/

/-- The date order is total: `a < b` is false exactly when `b ≤ a`. -/
theorem Date.not_blt (a b : Date) : (!Date.blt a b) = Date.ble b a := by
  simp only [Date.blt, Date.ble, ← decide_not, decide_eq_decide]
  omega

/-- A concrete holding (50 shares, bought at 2400, now 2650). -/
def c1Stock : Stock :=
  { ticker := "RELIANCE", name := "Reliance Industries Limited",
    shares := 50, purchase_price := 2400, current_price := 2650,
    currency := "INR" }

/-- A one-holding portfolio on which the summary builder is evaluated. -/
def c1Portfolio : Portfolio := { name := "C1", stocks := [c1Stock] }

/-- C1: for every holding, unrealized gain = total value − total cost =
shares × current price − shares × purchase price, but the per-holding
summary does not report a gain percentage: `generate_dividend_summary`
reads `stock.unrealized_gain_percentage`, an attribute `models.Stock` never
defines, so the summary raises `AttributeError` on any portfolio with at
least one holding — here evaluated on a concrete one-holding portfolio. -/
theorem c1_unrealized_gain_and_summary_attribute_error :
    (∀ s : Stock, s.unrealized_gain =
      s.shares * s.current_price - s.shares * s.purchase_price) ∧
    generate_dividend_summary c1Portfolio ⟨2026, 10, 12⟩ =
      Except.error
        "AttributeError: Stock has no attribute unrealized_gain_percentage" :=
  ⟨fun _ => rfl, rfl⟩

/-- C4: the degenerate-arithmetic guards.  A zero current price makes the
per-stock yield 0, otherwise it is annual dividend per share ÷ price × 100;
a zero total portfolio value makes the portfolio yield 0, otherwise it is
schedule-derived annual income ÷ total value × 100.  Both functions are
total, so no division error can be raised. -/
theorem c4_zero_guards :
    (∀ (s : Stock) (a : ℚ), s.current_price = 0 →
      calculate_dividend_yield s a = 0) ∧
    (∀ (s : Stock) (a : ℚ), s.current_price ≠ 0 →
      calculate_dividend_yield s a = a / s.current_price * 100) ∧
    (∀ p : Portfolio, p.total_portfolio_value = 0 →
      calculate_portfolio_dividend_yield p = 0) ∧
    (∀ p : Portfolio, p.total_portfolio_value ≠ 0 →
      calculate_portfolio_dividend_yield p =
        calculate_annual_dividend_income p / p.total_portfolio_value * 100) := by
  refine ⟨fun s a h => ?_, fun s a h => ?_, fun p h => ?_, fun p h => ?_⟩ <;>
    simp [calculate_dividend_yield, calculate_portfolio_dividend_yield, h]

/-- A holding with current price 0, for the C4 witness. -/
def zeroPriceStock : Stock :=
  { ticker := "Z", name := "Zero", shares := 10,
    purchase_price := 5, current_price := 0 }

/-- Witness for C4: the guards fire on a zero-priced stock and on the empty
portfolio. -/
theorem c4_zero_guards_witness :
    calculate_dividend_yield zeroPriceStock 7 = 0 ∧
    calculate_portfolio_dividend_yield { name := "E" } = 0 :=
  ⟨c4_zero_guards.1 zeroPriceStock 7 rfl,
   c4_zero_guards.2.2.1 { name := "E" } rfl⟩

/-- C8: historical income reads only the per-event shares snapshot.
`total_amount` is amount per share × the shares stored on the event, and
two portfolios with the same event log — however different their holdings,
schedules or name — have identical total dividend income on every range. -/
theorem c8_income_uses_snapshot_only :
    (∀ d : Dividend, d.total_amount = d.amount_per_share * d.shares_owned) ∧
    (∀ p q : Portfolio, p.dividends = q.dividends →
      ∀ (start_date end_date : Option Date) (today : Date),
        calculate_total_dividend_income p start_date end_date today =
          calculate_total_dividend_income q start_date end_date today) := by
  refine ⟨fun _ => rfl, fun p q h s e t => ?_⟩
  simp [calculate_total_dividend_income, h]

/-- A dividend event with its own shares snapshot (50 shares). -/
def c8Dividend : Dividend :=
  { ticker := "RELIANCE", payment_date := ⟨2026, 9, 12⟩,
    amount_per_share := 2, shares_owned := 50, payment_status := "paid" }

/-- Witness for C8: doubling the holding's live share count does not change
any income figure computed from the event log. -/
theorem c8_income_uses_snapshot_only_witness :
    calculate_total_dividend_income
        { name := "P", stocks := [c1Stock], dividends := [c8Dividend] }
        none none ⟨2026, 10, 12⟩ =
      calculate_total_dividend_income
        { name := "P", stocks := [{ c1Stock with shares := 100 }],
          dividends := [c8Dividend] }
        none none ⟨2026, 10, 12⟩ :=
  c8_income_uses_snapshot_only.2
    { name := "P", stocks := [c1Stock], dividends := [c8Dividend] }
    { name := "P", stocks := [{ c1Stock with shares := 100 }],
      dividends := [c8Dividend] }
    rfl none none ⟨2026, 10, 12⟩

/-- The holding of the C3 scenario: 100 shares at current price 175. -/
def c3Stock : Stock :=
  { ticker := "TCS", name := "Tata Consultancy Services Limited",
    shares := 100, purchase_price := 150, current_price := 175 }

/-- The schedule of the C3 scenario: quarterly, typical amount 0.24. -/
def c3Schedule : DividendSchedule :=
  { ticker := "TCS", frequency := "quarterly", typical_amount := 24/100 }

/-- The one-holding portfolio of the C3 scenario. -/
def c3Portfolio : Portfolio :=
  { name := "C3", stocks := [c3Stock], schedules := [("TCS", c3Schedule)] }

/-- C3: the expected annual income is schedule-derived, not historical: it
ignores the dividend event log entirely, equals the sum over schedule
entries of typical amount × annual frequency × the resolved holding's
shares, and the 100-share quarterly-0.24 scenario yields 96. -/
theorem c3_annual_income_schedule_derived :
    (∀ (p : Portfolio) (divs : List Dividend),
      calculate_annual_dividend_income { p with dividends := divs } =
        calculate_annual_dividend_income p) ∧
    (∀ p : Portfolio,
      calculate_annual_dividend_income p =
        (p.schedules.map (fun ts =>
          match p.get_stock ts.1 with
          | some stock =>
              ts.2.typical_amount * (ts.2.get_annual_frequency : ℚ) * stock.shares
          | none => 0)).sum) ∧
    calculate_annual_dividend_income c3Portfolio = 96 := by
  refine ⟨fun p divs => rfl, fun p => rfl, ?_⟩
  have h4 : c3Schedule.get_annual_frequency = 4 := rfl
  norm_num [calculate_annual_dividend_income, c3Portfolio, c3Stock,
    Portfolio.get_stock, List.find?, h4]
  norm_num [c3Schedule]

/-- The loop filter agrees with the spec reading `start ≤ payment_date ≤ end`. -/
theorem keepDividend_eq_range (start? : Option Date) (endd : Date)
    (d : Dividend) :
    keepDividend start? endd d =
      ((start?.elim true fun s => Date.ble s d.payment_date) &&
        Date.ble d.payment_date endd) := by
  cases start? with
  | none => simp [keepDividend, keepDate, Date.not_blt]
  | some s => simp [keepDividend, keepDate, Date.not_blt]

/-- The dividend event of the C2 scenario: paid 30 days before `today`
(= 2026-10-12), 2 per share on a 50-share snapshot. -/
def c2Dividend : Dividend :=
  { ticker := "TCS", payment_date := ⟨2026, 9, 12⟩,
    amount_per_share := 2, shares_owned := 50, payment_status := "paid" }

/-- The portfolio of the C2 scenario. -/
def c2Portfolio : Portfolio := { name := "C2", dividends := [c2Dividend] }

/-- C2: total dividend income sums the total amounts of exactly the events
with `start ≤ payment_date ≤ end`, where an absent end defaults to `today`
and an absent start is unbounded, with no condition on the payment status;
and the scenario: an event dated 2026-09-12 (today − 30 days for `today` =
2026-10-12) is counted for start = 2026-08-13 (today − 60 days) and not
counted for start = 2026-10-02 (today − 10 days). -/
theorem c2_income_date_range :
    (∀ (p : Portfolio) (start_date end_date : Option Date) (today : Date),
      calculate_total_dividend_income p start_date end_date today =
        ((p.dividends.filter (fun d =>
            (start_date.elim true fun s => Date.ble s d.payment_date) &&
              Date.ble d.payment_date (end_date.getD today))).map
          Dividend.total_amount).sum) ∧
    calculate_total_dividend_income c2Portfolio
        (some ⟨2026, 8, 13⟩) none ⟨2026, 10, 12⟩ = 100 ∧
    calculate_total_dividend_income c2Portfolio
        (some ⟨2026, 10, 2⟩) none ⟨2026, 10, 12⟩ = 0 := by
  refine ⟨fun p s e t => ?_, ?_, ?_⟩
  · simp only [calculate_total_dividend_income]
    rw [List.filter_congr (fun d _ => keepDividend_eq_range s (e.getD t) d)]
  · norm_num [calculate_total_dividend_income, c2Portfolio, c2Dividend,
      keepDividend, keepDate, Date.blt, Dividend.total_amount, List.filter]
  · norm_num [calculate_total_dividend_income, c2Portfolio, c2Dividend,
      keepDividend, keepDate, Date.blt, Dividend.total_amount, List.filter]

/-- Dropping the schedule entries whose ticker does not resolve to a holding
leaves a sum of zero contributions out. -/
theorem sum_map_filter_of_zero {α : Type} (l : List α) (f : α → ℚ)
    (q : α → Bool) (h : ∀ x ∈ l, q x = false → f x = 0) :
    (l.map f).sum = ((l.filter q).map f).sum := by
  induction l with
  | nil => rfl
  | cons x xs ih =>
      have hxs : ∀ y ∈ xs, q y = false → f y = 0 :=
        fun y hy => h y (List.mem_cons_of_mem x hy)
      cases hq : q x with
      | true => simp [List.filter_cons, hq, ih hxs]
      | false => simp [List.filter_cons, hq, h x (List.mem_cons_self x xs) hq,
          ih hxs]

/-- C10: a schedule whose ticker has no holding contributes 0: both the
annual income and every projected month are unchanged when the schedule map
is restricted to the entries whose ticker resolves via `get_stock`, so the
functions depend only on resolvable schedules (and return plainly — no
error, no absent result, both being total functions of the portfolio). -/
theorem c10_unresolved_schedules_skipped :
    ∀ p : Portfolio,
      calculate_annual_dividend_income p =
        calculate_annual_dividend_income
          { p with schedules :=
              p.schedules.filter (fun ts => (p.get_stock ts.1).isSome) } ∧
      ∀ (months : Nat) (monthly_growth : ℚ) (today : Date),
        project_dividend_income p months monthly_growth today =
          project_dividend_income
            { p with schedules :=
                p.schedules.filter (fun ts => (p.get_stock ts.1).isSome) }
            months monthly_growth today := by
  intro p
  have hget : ∀ t : String,
      Portfolio.get_stock
        { p with schedules :=
            p.schedules.filter (fun ts => (p.get_stock ts.1).isSome) } t =
      p.get_stock t := fun _ => rfl
  constructor
  · simp only [calculate_annual_dividend_income, hget]
    exact sum_map_filter_of_zero _ _ _ (fun ts _ h => by
      cases hs : p.get_stock ts.1 with
      | none => rfl
      | some s => rw [hs] at h; simp at h)
  · intro months mg today
    simp only [project_dividend_income, hget]
    refine List.map_congr_left (fun m _ => ?_)
    have := sum_map_filter_of_zero p.schedules
      (fun ts =>
        match p.get_stock ts.1 with
        | some stock =>
            (ts.2.typical_amount * stock.shares *
              (ts.2.get_annual_frequency : ℚ) / 12) * mg ^ m
        | none => 0)
      (fun ts => (p.get_stock ts.1).isSome)
      (fun ts _ h => by
        cases hs : p.get_stock ts.1 with
        | none => simp only [hs]
        | some s => simp [hs] at h)
    simp only [this]

/-- The base monthly expected income of the projection: Σ over resolvable
schedule entries of typical amount × shares × annual frequency ÷ 12. -/
def baseMonthlyIncome (p : Portfolio) : ℚ :=
  (p.schedules.map (fun ts =>
    match p.get_stock ts.1 with
    | some stock =>
        ts.2.typical_amount * stock.shares * (ts.2.get_annual_frequency : ℚ) / 12
    | none => 0)).sum

/-- One projected month factors as base income × growth factor. -/
theorem projection_month_income (p : Portfolio) (mg : ℚ) (m : Nat) :
    (p.schedules.map (fun ts =>
      match p.get_stock ts.1 with
      | some stock =>
          (ts.2.typical_amount * stock.shares *
            (ts.2.get_annual_frequency : ℚ) / 12) * mg ^ m
      | none => 0)).sum = baseMonthlyIncome p * mg ^ m := by
  rw [baseMonthlyIncome, ← List.sum_map_mul_right]
  refine congrArg List.sum (List.map_congr_left (fun ts _ => ?_))
  cases hs : p.get_stock ts.1 with
  | none => simp [hs]
  | some stock => simp [hs]

/-- C6: the projection returns one pair per month offset `0 .. months − 1`:
the m-th entry is the last calendar day of the m-th month from the current
one, paired with the base monthly expected income times the m-th power of
the monthly growth factor; and with the growth factor of growth rate 0
(`(1 + 0/100)^(1/12) = 1`) all projected monthly values are equal. -/
theorem c6_projection (p : Portfolio) (months : Nat) (monthly_growth : ℚ)
    (today : Date) :
    (project_dividend_income p months monthly_growth today).length = months ∧
    (∀ m, m < months →
      (project_dividend_income p months monthly_growth today)[m]? =
        some (projectionMonthEnd today m,
          baseMonthlyIncome p * monthly_growth ^ m)) ∧
    (monthly_growth = 1 →
      ∀ x ∈ project_dividend_income p months monthly_growth today,
      ∀ y ∈ project_dividend_income p months monthly_growth today,
        x.2 = y.2) := by
  refine ⟨by simp [project_dividend_income], fun m hm => ?_, fun hg x hx y hy => ?_⟩
  · simp [project_dividend_income, List.getElem?_range, hm, projection_month_income]
  · have hsnd : ∀ z ∈ project_dividend_income p months monthly_growth today,
        z.2 = baseMonthlyIncome p := by
      intro z hz
      simp only [project_dividend_income, List.mem_map, List.mem_range] at hz
      obtain ⟨m, -, rfl⟩ := hz
      simp [projection_month_income, hg, baseMonthlyIncome]
    rw [hsnd x hx, hsnd y hy]

/-- Witness for C6: a two-month, growth-one projection on the concrete
scenario portfolio, checked at month offset 1 and for value equality. -/
theorem c6_projection_witness :
    (project_dividend_income c3Portfolio 2 1 ⟨2026, 10, 12⟩)[1]? =
      some (projectionMonthEnd ⟨2026, 10, 12⟩ 1,
        baseMonthlyIncome c3Portfolio * 1 ^ 1) ∧
    (∀ x ∈ project_dividend_income c3Portfolio 2 1 ⟨2026, 10, 12⟩,
     ∀ y ∈ project_dividend_income c3Portfolio 2 1 ⟨2026, 10, 12⟩,
       x.2 = y.2) :=
  ⟨(c6_projection c3Portfolio 2 1 ⟨2026, 10, 12⟩).2.1 1 (by decide),
   (c6_projection c3Portfolio 2 1 ⟨2026, 10, 12⟩).2.2 rfl⟩

/-- A sequence of `add_stock` calls, starting from a given portfolio. -/
def applyAddStocks (p : Portfolio) (l : List Stock) : Portfolio :=
  l.foldl Portfolio.add_stock p

/-- `add_stock` only ever appends: after any sequence of calls the holdings
list is the original list extended by the added stocks, in order. -/
theorem applyAddStocks_stocks (l : List Stock) (p : Portfolio) :
    (applyAddStocks p l).stocks = p.stocks ++ l := by
  induction l generalizing p with
  | nil => simp [applyAddStocks]
  | cons s rest ih =>
      simp [applyAddStocks, Portfolio.add_stock] at ih ⊢
      rw [ih, List.append_assoc]
      rfl

/-- First of two distinct holdings sharing the ticker "A". -/
def c9StockA : Stock :=
  { ticker := "A", name := "First A", shares := 10,
    purchase_price := 5, current_price := 7 }

/-- Second holding with the same ticker "A". -/
def c9StockB : Stock :=
  { ticker := "A", name := "Second A", shares := 20,
    purchase_price := 3, current_price := 4 }

/-- The portfolio built from empty by adding the two same-ticker stocks. -/
def c9Portfolio : Portfolio := applyAddStocks { name := "C9" } [c9StockA, c9StockB]

/-- Counterexample to C9: `add_stock` never checks the ticker, so adding two
stocks with ticker "A" to an empty portfolio leaves two holdings with that
ticker; `get_stock` returns only the first and `total_portfolio_value`
counts both (10 × 7 + 20 × 4 = 150). -/
theorem c9_counterexample :
    (c9Portfolio.stocks.filter (fun s => s.ticker == "A")).length = 2 ∧
    c9Portfolio.get_stock "A" = some c9StockA ∧
    c9Portfolio.total_portfolio_value =
      c9StockA.total_value + c9StockB.total_value := by
  refine ⟨rfl, rfl, ?_⟩
  norm_num [c9Portfolio, applyAddStocks, Portfolio.add_stock,
    Portfolio.total_portfolio_value]

/-- With pairwise-distinct tickers a ticker filter keeps at most one stock. -/
theorem filter_ticker_length_le_one (l : List Stock)
    (h : (l.map Stock.ticker).Nodup) (t : String) :
    (l.filter (fun s => s.ticker == t)).length ≤ 1 := by
  induction l with
  | nil => simp
  | cons s rest ih =>
      rw [List.map_cons, List.nodup_cons] at h
      rw [List.filter_cons]
      cases hst : (s.ticker == t) with
      | false => exact ih h.2
      | true =>
          have ht : s.ticker = t := by simpa using hst
          have hrest : rest.filter (fun x => x.ticker == t) = [] := by
            rw [List.filter_eq_nil_iff]
            intro x hx
            have : x.ticker ∈ rest.map Stock.ticker := List.mem_map_of_mem _ hx
            simp only [beq_iff_eq]
            intro hxt
            apply h.1
            rw [ht, ← hxt]
            exact this
          simp [hrest]

/-- With pairwise-distinct tickers, `find?` on a member's ticker returns
exactly that member. -/
theorem find_ticker_of_nodup (l : List Stock)
    (h : (l.map Stock.ticker).Nodup) (s : Stock) (hs : s ∈ l) :
    l.find? (fun x => x.ticker == s.ticker) = some s := by
  induction l with
  | nil => cases hs
  | cons x rest ih =>
      rw [List.map_cons, List.nodup_cons] at h
      rcases List.mem_cons.mp hs with rfl | hmem
      · exact List.find?_cons_of_pos _ (by simp)
      · have hne : (x.ticker == s.ticker) = false := by
          simp only [beq_eq_false_iff_ne, ne_eq]
          intro hxt
          exact h.1 (hxt ▸ List.mem_map_of_mem _ hmem)
        rw [List.find?_cons_of_neg _ (by simp [hne])]
        exact ih h.2 hmem

/-- C9 amended: `add_stock` appends unconditionally and never deduplicates,
so ticker uniqueness is not an invariant the portfolio maintains; it holds
exactly when the added stocks carry pairwise-distinct tickers, and then
each ticker matches at most one holding and `get_stock` resolves every
added stock to itself. -/
theorem c9_amended_uniqueness_only_if_distinct (nm : String) (l : List Stock) :
    (applyAddStocks { name := nm } l).stocks = l ∧
    ((l.map Stock.ticker).Nodup →
      (∀ t : String,
        ((applyAddStocks { name := nm } l).stocks.filter
          (fun s => s.ticker == t)).length ≤ 1) ∧
      ∀ s ∈ l, (applyAddStocks { name := nm } l).get_stock s.ticker = some s) := by
  have hstocks : (applyAddStocks { name := nm } l).stocks = l := by
    rw [applyAddStocks_stocks]; rfl
  refine ⟨hstocks, fun h => ⟨fun t => ?_, fun s hs => ?_⟩⟩
  · rw [hstocks]; exact filter_ticker_length_le_one l h t
  · rw [Portfolio.get_stock, hstocks]; exact find_ticker_of_nodup l h s hs

/-- A holding with ticker "B", distinct from "A". -/
def c9StockC : Stock :=
  { ticker := "B", name := "Only B", shares := 3,
    purchase_price := 2, current_price := 9 }

/-- Witness for the amended C9 on a concrete distinct-ticker add sequence. -/
theorem c9_amended_uniqueness_only_if_distinct_witness :
    ((applyAddStocks { name := "W9" } [c9StockA, c9StockC]).stocks.filter
      (fun s => s.ticker == "A")).length ≤ 1 ∧
    (applyAddStocks { name := "W9" } [c9StockA, c9StockC]).get_stock
      c9StockC.ticker = some c9StockC :=
  ⟨((c9_amended_uniqueness_only_if_distinct "W9" [c9StockA, c9StockC]).2
      (by decide)).1 "A",
   ((c9_amended_uniqueness_only_if_distinct "W9" [c9StockA, c9StockC]).2
      (by decide)).2 c9StockC
      (List.mem_cons_of_mem _ (List.mem_cons_self _ _))⟩

/-- The spec-side reading of the growth-rate loop: the consecutive pairs of
the chronologically sorted events, keeping the percentage delta of each
pair whose earlier amount per share is positive. -/
def qualifyingRates (l : List Dividend) : List ℚ :=
  (l.zip l.tail).filterMap (fun pr =>
    if 0 < pr.1.amount_per_share then
      some ((pr.2.amount_per_share - pr.1.amount_per_share) /
        pr.1.amount_per_share * 100)
    else none)

/-- The source loop computes exactly the qualifying consecutive-pair rates. -/
theorem pairGrowthRates_eq_qualifying (l : List Dividend) :
    pairGrowthRates l = qualifyingRates l := by
  induction l with
  | nil => rfl
  | cons a tail ih =>
      cases tail with
      | nil => rfl
      | cons b rest =>
          rw [pairGrowthRates, ih]
          simp only [qualifyingRates, List.tail_cons, List.zip_cons_cons,
            List.filterMap_cons]
          by_cases hpos : 0 < a.amount_per_share
          · simp [hpos]
          · simp [hpos]

/-- The three dividend events of the C7 counterexample: amounts per share
0, 5 and 10 in chronological order. -/
def c7Event (y : Int) (amt : ℚ) : Dividend :=
  { ticker := "X", payment_date := ⟨y, 3, 1⟩,
    amount_per_share := amt, shares_owned := 1 }

/-- A portfolio whose ticker "X" has events with amounts 0, 5, 10. -/
def c7Portfolio : Portfolio :=
  { name := "C7",
    dividends := [c7Event 2023 0, c7Event 2024 5, c7Event 2025 10] }

/-- Counterexample to C7: the earliest reference amount of ticker "X" is 0,
yet the growth rate is not an absent result — the zero-amount pair is merely
skipped and the remaining pair (5 → 10) yields an average of 100%. -/
theorem c7_counterexample_zero_earliest_not_none :
    (sortByPaymentDate (c7Portfolio.get_dividends_for_stock "X")).head?.map
      Dividend.amount_per_share = some 0 ∧
    calculate_dividend_growth_rate c7Portfolio "X" = some 100 := by
  refine ⟨rfl, ?_⟩
  norm_num [calculate_dividend_growth_rate, c7Portfolio, c7Event,
    Portfolio.get_dividends_for_stock, sortByPaymentDate, insertByDate,
    pairGrowthRates, Date.ble, List.filter]

/-- C7 amended: the result is absent exactly when the ticker has fewer than
2 events or no consecutive pair of the sorted events has a positive earlier
amount (in particular with exactly 2 events whose earliest amount is 0);
otherwise it is the average of the percentage deltas over the qualifying
pairs only. -/
theorem c7_amended_growth_rate_guards (p : Portfolio) (t : String) :
    (calculate_dividend_growth_rate p t = none ↔
      (p.get_dividends_for_stock t).length < 2 ∨
      qualifyingRates (sortByPaymentDate (p.get_dividends_for_stock t)) = []) ∧
    (2 ≤ (p.get_dividends_for_stock t).length →
      qualifyingRates (sortByPaymentDate (p.get_dividends_for_stock t)) ≠ [] →
      calculate_dividend_growth_rate p t =
        some ((qualifyingRates
            (sortByPaymentDate (p.get_dividends_for_stock t))).sum /
          ((qualifyingRates
            (sortByPaymentDate (p.get_dividends_for_stock t))).length : ℚ))) := by
  constructor
  · simp only [calculate_dividend_growth_rate, pairGrowthRates_eq_qualifying]
    split_ifs with h1 h2
    · simp [h1]
    · simp [h1, h2]
    · simp only [Option.some_ne_none, false_iff]
      push_neg
      exact ⟨by omega, h2⟩
  · intro h1 h2
    simp only [calculate_dividend_growth_rate, pairGrowthRates_eq_qualifying]
    rw [if_neg (by omega), if_neg h2]

/-- Witness for the amended C7, on the concrete 0/5/10 portfolio: at least
2 events and a nonempty qualifying-rate list force a present result. -/
theorem c7_amended_growth_rate_guards_witness :
    calculate_dividend_growth_rate c7Portfolio "X" =
      some ((qualifyingRates
          (sortByPaymentDate (c7Portfolio.get_dividends_for_stock "X"))).sum /
        ((qualifyingRates
          (sortByPaymentDate (c7Portfolio.get_dividends_for_stock "X"))).length : ℚ)) :=
  (c7_amended_growth_rate_guards c7Portfolio "X").2 (by decide)
    (by
      norm_num [qualifyingRates, sortByPaymentDate, insertByDate,
        c7Portfolio, c7Event, Portfolio.get_dividends_for_stock, Date.ble,
        List.filter]
      simp)

/-- Every month length given by the Gregorian rule lies between 1 and 31. -/
theorem daysInMonth_bounds (y : Int) (m : Nat) :
    1 ≤ daysInMonth y m ∧ daysInMonth y m ≤ 31 := by
  unfold daysInMonth
  split_ifs <;> norm_num

/-- The calendar partition at the heart of C5: a valid date lies in the
year-`y` range exactly when it lies in exactly one of the 12 month ranges
of year `y`, stated as an indicator-sum identity. -/
theorem keepDate_year_split (y : Int) (dt : Date) (hv : dt.Valid) (a : ℚ) :
    (if keepDate (some ⟨y, 1, 1⟩) ⟨y, 12, 31⟩ dt then a else 0) =
      ∑ m ∈ Finset.range 12,
        (if keepDate (some ⟨y, m + 1, 1⟩) ⟨y, m + 1, daysInMonth y (m + 1)⟩ dt
          then a else 0) := by
  obtain ⟨h1, h2, h3, h4⟩ := hv
  by_cases hY : dt.year = y
  · have hd31 : dt.day ≤ 31 := le_trans h4 (daysInMonth_bounds dt.year dt.month).2
    have hkeep : keepDate (some ⟨y, 1, 1⟩) ⟨y, 12, 31⟩ dt = true := by
      simp only [keepDate, Date.blt, Bool.and_eq_true, Bool.not_eq_true',
        decide_eq_false_iff_not]
      omega
    have hcongr : ∀ m ∈ Finset.range 12,
        (if keepDate (some ⟨y, m + 1, 1⟩) ⟨y, m + 1, daysInMonth y (m + 1)⟩ dt
          then a else 0) =
        (if m = dt.month - 1 then a else 0) := by
      intro m hm
      rw [Finset.mem_range] at hm
      by_cases hmm : m = dt.month - 1
      · have hm1 : m + 1 = dt.month := by omega
        have hdim : daysInMonth y (m + 1) = daysInMonth dt.year dt.month := by
          rw [hm1, hY]
        have hk : keepDate (some ⟨y, m + 1, 1⟩)
            ⟨y, m + 1, daysInMonth y (m + 1)⟩ dt = true := by
          simp only [keepDate, Date.blt, Bool.and_eq_true, Bool.not_eq_true',
            decide_eq_false_iff_not]
          rw [hdim]
          omega
        rw [if_pos hk, if_pos hmm]
      · have hk : keepDate (some ⟨y, m + 1, 1⟩)
            ⟨y, m + 1, daysInMonth y (m + 1)⟩ dt = false := by
          simp only [keepDate, Date.blt, Bool.and_eq_false_iff,
            Bool.not_eq_false', decide_eq_true_eq]
          omega
        rw [if_neg (by simp [hk]), if_neg hmm]
    rw [Finset.sum_congr rfl hcongr, Finset.sum_ite_eq' (Finset.range 12)
      (dt.month - 1) (fun _ => a)]
    have hmem : dt.month - 1 ∈ Finset.range 12 := Finset.mem_range.mpr (by omega)
    rw [if_pos hmem, if_pos hkeep]
  · have hkeep : keepDate (some ⟨y, 1, 1⟩) ⟨y, 12, 31⟩ dt = false := by
      simp only [keepDate, Date.blt, Bool.and_eq_false_iff,
        Bool.not_eq_false', decide_eq_true_eq]
      omega
    rw [if_neg (by simp [hkeep]), Finset.sum_eq_zero]
    intro m hm
    have hk : keepDate (some ⟨y, m + 1, 1⟩)
        ⟨y, m + 1, daysInMonth y (m + 1)⟩ dt = false := by
      simp only [keepDate, Date.blt, Bool.and_eq_false_iff,
        Bool.not_eq_false', decide_eq_true_eq]
      omega
    rw [if_neg (by simp [hk])]

/-- Keeping C5 at the level of event lists: the year-range filtered sum
splits into the 12 month-range filtered sums, for events on valid dates. -/
theorem sumKeep_year_split (y : Int) (ds : List Dividend)
    (hv : ∀ d ∈ ds, d.payment_date.Valid) :
    ((ds.filter (keepDividend (some ⟨y, 1, 1⟩) ⟨y, 12, 31⟩)).map
      Dividend.total_amount).sum =
      ∑ m ∈ Finset.range 12,
        ((ds.filter (keepDividend (some ⟨y, m + 1, 1⟩)
            ⟨y, m + 1, daysInMonth y (m + 1)⟩)).map
          Dividend.total_amount).sum := by
  induction ds with
  | nil => simp
  | cons d rest ih =>
      have hvd : d.payment_date.Valid := hv d (List.mem_cons_self d rest)
      have hvr : ∀ e ∈ rest, e.payment_date.Valid :=
        fun e he => hv e (List.mem_cons_of_mem d he)
      have expand : ∀ (s : Option Date) (e : Date),
          (((d :: rest).filter (keepDividend s e)).map
            Dividend.total_amount).sum =
          (if keepDate s e d.payment_date then d.total_amount else 0) +
            ((rest.filter (keepDividend s e)).map Dividend.total_amount).sum := by
        intro s e
        simp only [List.filter_cons, keepDividend]
        by_cases h : keepDate s e d.payment_date = true
        · simp [h]
        · rw [Bool.not_eq_true] at h
          simp [h]
      rw [expand (some ⟨y, 1, 1⟩) ⟨y, 12, 31⟩, ih hvr,
        Finset.sum_congr rfl (fun m _ => expand (some ⟨y, m + 1, 1⟩)
          ⟨y, m + 1, daysInMonth y (m + 1)⟩),
        Finset.sum_add_distrib,
        ← keepDate_year_split y d.payment_date hvd d.total_amount]

/-- C5: for every portfolio whose event dates are valid calendar dates (as
`datetime.date` guarantees by construction) and every year, the income over
[Jan 1, Dec 31] equals the sum over the 12 months of the income over
[first day of month, last calendar day of month], the last day given by the
proleptic Gregorian days-in-month rule. -/
theorem c5_year_income_eq_sum_of_months (p : Portfolio) (y : Int)
    (today : Date) (hv : ∀ d ∈ p.dividends, d.payment_date.Valid) :
    calculate_total_dividend_income p (some ⟨y, 1, 1⟩) (some ⟨y, 12, 31⟩)
        today =
      ∑ m ∈ Finset.range 12,
        calculate_total_dividend_income p (some ⟨y, m + 1, 1⟩)
          (some ⟨y, m + 1, daysInMonth y (m + 1)⟩) today := by
  simp only [calculate_total_dividend_income, Option.getD_some]
  exact sumKeep_year_split y p.dividends hv

/-- Witness for C5: the concrete 2026 decomposition on the scenario
portfolio with one September 2026 event. -/
theorem c5_year_income_eq_sum_of_months_witness :
    calculate_total_dividend_income c2Portfolio (some ⟨2026, 1, 1⟩)
        (some ⟨2026, 12, 31⟩) ⟨2026, 10, 12⟩ =
      ∑ m ∈ Finset.range 12,
        calculate_total_dividend_income c2Portfolio (some ⟨2026, m + 1, 1⟩)
          (some ⟨2026, m + 1, daysInMonth 2026 (m + 1)⟩) ⟨2026, 10, 12⟩ :=
  c5_year_income_eq_sum_of_months c2Portfolio 2026 ⟨2026, 10, 12⟩ (by decide)
